import Mathlib

/-!
Verification of `procurement_agent/tools.py` against its specification.

The tool functions are shallowly embedded: Python dicts with optional keys
become structures with `Option` fields, the JSON memory store
(`memory_store.json`, managed by `memory.py`) becomes an explicit `MemStore`
value threaded through the stateful operations, and a Python exception is an
`Except.error` result.  File I/O is taken to succeed (the `write_err` branches
of the source never fire in this model) and the append-only audit log is
modelled only where a claim inspects it (`fetch_vendors`).
-/

namespace Procurement

/-- Python `s.strip()` (ASCII whitespace), written over the character list so
that it reduces inside the kernel (`String.trim` is well-founded recursion and
does not). -/
def pyStrip (s : String) : String :=
  ⟨((s.data.dropWhile Char.isWhitespace).reverse.dropWhile Char.isWhitespace).reverse⟩

/-- Python `s.lower()` (ASCII), written over the character list. -/
def pyLower (s : String) : String := ⟨s.data.map Char.toLower⟩

/-- Python `s.strip().lower()` — the normalisation applied at blacklist
comparison sites in `tools.py`. -/
def norm (s : String) : String := pyLower (pyStrip s)

/-- A vendor record from the catalog (`mock_vendors.json`).  Only the keys the
tools read are modelled; a key missing from the Python dict is `none`.  Extra
catalog keys (`id`, `delivery_days`, `in_stock`) are never read by the tool
functions and are omitted. -/
structure Vendor where
  name : Option String
  price_per_100_bags_inr : Option Int
  category : Option String
deriving Repr, DecidableEq

/-- Accessor `v.get("name", "Unknown")` used by `filter_vendors`. -/
def vName (v : Vendor) : String := v.name.getD "Unknown"

/-- Accessor `v.get("price_per_100_bags_inr", 0)` used by `filter_vendors`. -/
def vPrice (v : Vendor) : Int := v.price_per_100_bags_inr.getD 0

/-- Accessor `v.get("category", "")` used by `fetch_vendors` for matching. -/
def vCategory (v : Vendor) : String := v.category.getD ""

/-- Insert thousands separators into a reversed digit list — the grouping step
of Python `f"{n:,}"` formatting. -/
def group3 : List Char → List Char
  | c1 :: c2 :: c3 :: c4 :: rest => c1 :: c2 :: c3 :: ',' :: group3 (c4 :: rest)
  | l => l

/-- Python `f"{n:,}"` for a natural number. -/
def fmtNat (n : Nat) : String := ⟨(group3 (toString n).data.reverse).reverse⟩

/-- Python `f"{n:,}"` for an integer. -/
def fmt (n : Int) : String := if n < 0 then "-" ++ fmtNat n.natAbs else fmtNat n.natAbs

/-- An entry of the `rejected` / `over_budget` buckets:
`{"vendor": name, "reason": reason, "price": price}`. -/
structure RejEntry where
  vendor : String
  reason : String
  price : Int
deriving Repr, DecidableEq

/-- The dict returned by `filter_vendors`; `message` models the optional
diagnostic key. -/
structure FilterResult where
  eligible : List Vendor
  rejected : List RejEntry
  over_budget : List RejEntry
  message : Option String
deriving Repr, DecidableEq

/-- Step 1 test of the `filter_vendors` loop:
`name.strip().lower() in blacklist_lower`, where
`blacklist_lower = {n.strip().lower() for n in blacklist}`. -/
def isBlacklisted (blacklist : List String) (v : Vendor) : Bool :=
  (blacklist.map norm).contains (norm (vName v))

/-- Step 2 test of the loop: reached only past the blacklist `continue`, and
checks `price > budget`. -/
def isOverBudget (blacklist : List String) (budget : Int) (v : Vendor) : Bool :=
  !isBlacklisted blacklist v && decide (budget < vPrice v)

/-- Step 3 of the loop: a vendor that fell through both `continue`s. -/
def isEligible (blacklist : List String) (budget : Int) (v : Vendor) : Bool :=
  !isBlacklisted blacklist v && decide (vPrice v ≤ budget)

/-- Reason string of a blacklist rejection. -/
def blacklistReason : String := "Blacklisted for this site"

/-- Reason string of an over-budget rejection. -/
def overBudgetReason (price budget : Int) : String :=
  "Price ₹" ++ fmt price ++ " exceeds budget ₹" ++ fmt budget

/-- Build the bucket entry `{"vendor": name, "reason": reason, "price": price}`. -/
def toRejEntry (reason : String) (v : Vendor) : RejEntry :=
  ⟨vName v, reason, vPrice v⟩

/-- The `eligible` bucket in input order, before the final sort: the loop
appends exactly the vendors passing both checks, preserving input order. -/
def eligibleRaw (vendors : List Vendor) (blacklist : List String) (budget : Int) :
    List Vendor :=
  vendors.filter (isEligible blacklist budget)

/-- Comparison used by `eligible.sort(key=lambda v: v.get("price_per_100_bags_inr", 0))`. -/
def vendorLE (a b : Vendor) : Prop := vPrice a ≤ vPrice b

instance : DecidableRel vendorLE := fun a b => Int.decLe (vPrice a) (vPrice b)

instance : IsTotal Vendor vendorLE := ⟨fun a b => Int.le_total (vPrice a) (vPrice b)⟩

instance : IsTrans Vendor vendorLE := ⟨fun _ _ _ h1 h2 => le_trans h1 h2⟩

/-- The final ascending stable sort of the eligible bucket.  Python `list.sort`
is a stable sort; any stable sort by the same key yields the same list, so it
is modelled by stable insertion sort. -/
def sortByPrice (l : List Vendor) : List Vendor := l.insertionSort vendorLE

/-- Python `min(over_budget, key=lambda x: x["price"])` on a non-empty list:
the first entry attaining the minimal price. -/
def minByPrice (e : RejEntry) (l : List RejEntry) : RejEntry :=
  l.foldl (fun acc x => if x.price < acc.price then x else acc) e

/-- Diagnostic attached when every vendor was blacklisted. -/
def allBlacklistedMessage (nRejected : Nat) : String :=
  "All " ++ toString nRejected ++ " vendor(s) are blacklisted for this site. " ++
    "No order can be placed. Update the blacklist or add new vendors."

/-- Diagnostic attached when no vendor is eligible but some are over budget. -/
def overBudgetMessage (budget : Int) (cheapest : RejEntry) : String :=
  "All non-blacklisted vendors exceed the budget of ₹" ++ fmt budget ++ ". " ++
    "Cheapest option: " ++ cheapest.vendor ++ " at ₹" ++ fmt cheapest.price ++ ". " ++
    "Request a budget increase or approve the over-budget order."

/-- The `filter_vendors(vendors, blacklist, budget, site_name)` tool.  The loop
appends each vendor to exactly one bucket in input order, which the three
`filter`s reproduce; `site_name` only labels audit entries and the per-vendor
`vendor_rejected` audit events are not modelled (no claim inspects them). -/
def filter_vendors (vendors : List Vendor) (blacklist : List String) (budget : Int) :
    FilterResult :=
  let rejected := (vendors.filter (isBlacklisted blacklist)).map (toRejEntry blacklistReason)
  let over_budget := (vendors.filter (isOverBudget blacklist budget)).map
    (fun v => toRejEntry (overBudgetReason (vPrice v) budget) v)
  let eligible := sortByPrice (eligibleRaw vendors blacklist budget)
  let message : Option String :=
    if eligible.isEmpty && over_budget.isEmpty && !rejected.isEmpty then
      some (allBlacklistedMessage rejected.length)
    else if eligible.isEmpty && !over_budget.isEmpty then
      match over_budget with
      | [] => none
      | e :: rest => some (overBudgetMessage budget (minByPrice e rest))
    else none
  ⟨eligible, rejected, over_budget, message⟩

/-- Audit payload logged by `fetch_vendors` when no vendor matches. -/
structure NoMatchEvent where
  reason : String
  available_categories : List String
deriving Repr, DecidableEq

/-- Reason field of the no-match audit event. -/
def noMatchReason (material : String) : String :=
  "No vendors found for material '" ++ material ++ "'"

/-- Python `sorted({v.get("category", "unknown") for v in all_vendors})`:
the distinct categories in ascending order. -/
def availableCategories (catalog : List Vendor) : List String :=
  ((catalog.map (fun v => v.category.getD "unknown")).dedup).insertionSort (· ≤ ·)

/-- The `fetch_vendors(material)` tool over an explicit catalog (the parsed
`mock_vendors.json` `"vendors"` list).  Returns the matched vendors together
with the `vendor_rejected` audit events it appends (one on no match, none
otherwise).  Note the source lowercases but does not strip the category:
`v.get("category", "").lower() == material.strip().lower()`. -/
def fetch_vendors (material : String) (catalog : List Vendor) :
    List Vendor × List NoMatchEvent :=
  let material_lower := pyLower (pyStrip material)
  let matched := catalog.filter (fun v => pyLower (vCategory v) == material_lower)
  if matched.isEmpty then
    (matched, [⟨noMatchReason material, availableCategories catalog⟩])
  else
    (matched, [])

/-- The per-site rules dict stored under the site key in `memory_store.json`. -/
structure SiteRules where
  approval_limit : Int
  vendor_blacklist : List String
deriving Repr, DecidableEq

/-- An order record appended under the `"orders"` key. -/
structure Order where
  site_name : String
  vendor_name : String
  material : String
  quantity : Int
  price_inr : Int
  status : String
deriving Repr, DecidableEq

/-- The contents of `memory_store.json`: site rules keyed by site name, and the
orders list kept under its own distinguished `"orders"` key. -/
structure MemStore where
  sites : String → Option SiteRules
  orders : List Order

/-- A fresh store (`read_json` of a missing file yields `{}`). -/
def MemStore.empty : MemStore := ⟨fun _ => none, []⟩

/-- Confirmation text of `store_site_rules`; `blacklist_display` joins the
original, untrimmed names. -/
def rulesStoredMessage (site_key : String) (approval_limit : Int)
    (vendor_blacklist : List String) : String :=
  let blacklist_display :=
    if vendor_blacklist.isEmpty then "(none)" else String.intercalate ", " vendor_blacklist
  "Rules stored for site '" ++ site_key ++ "': approval_limit=₹" ++ fmt approval_limit ++
    ", vendor_blacklist=[" ++ blacklist_display ++ "]."

/-- The `store_site_rules(site_name, approval_limit, vendor_blacklist)` tool:
validates the trimmed site name, then overwrites that site key wholesale with
`{"approval_limit": limit, "vendor_blacklist": [v.strip() for v in blacklist]}`. -/
def store_site_rules (site_name : String) (approval_limit : Int)
    (vendor_blacklist : List String) (st : MemStore) : String × MemStore :=
  let site_key := pyStrip site_name
  if site_key = "" then
    ("Error: site_name must be a non-empty string.", st)
  else
    let rules : SiteRules := ⟨approval_limit, vendor_blacklist.map pyStrip⟩
    (rulesStoredMessage site_key approval_limit vendor_blacklist,
     { st with sites := fun k => if k = site_key then some rules else st.sites k })

/-- The `retrieve_site_rules(site_name)` tool; `.ok rules` models the rules
dict and `.error msg` the `{"error": msg}` dict.  The source's
`isinstance(rules, dict) and "approval_limit" in rules` guard always holds for
an entry written by `store_site_rules`, which is what `MemStore.sites` holds. -/
def retrieve_site_rules (site_name : String) (st : MemStore) : Except String SiteRules :=
  let site_key := pyStrip site_name
  if site_key = "" then
    .error "site_name must be a non-empty string."
  else
    match st.sites site_key with
    | some rules => .ok rules
    | none =>
      .error ("No rules found for '" ++ site_key ++
        "'. Please set rules first using store_site_rules.")

/-- Auto-approval text returned by `place_order` within the limit. -/
def orderConfirmedMessage (quantity : Int) (material vendor_name : String)
    (price approval_limit : Int) : String :=
  "ORDER_CONFIRMED: Order placed: " ++ toString quantity ++ " bags " ++ material ++
    " from " ++ vendor_name ++ " at ₹" ++ fmt price ++
    ". Within approval limit of ₹" ++ fmt approval_limit ++ "."

/-- Escalation block returned by `place_order` over the limit.  The
floating-point `overage_pct` interpolation of the source
(`round((overage / approval_limit) * 100, 1)`) is left out of the text: IEEE-754
binary64 arithmetic is outside this embedding, and no theorem below inspects
that part of the string. -/
def approvalRequiredMessage (vendor_name : String) (price approval_limit overage : Int) :
    String :=
  "APPROVAL_REQUIRED\n" ++ "Order Details:\n" ++
    "  Vendor: " ++ vendor_name ++ "\n" ++
    "  Cost: ₹" ++ fmt price ++ "\n" ++
    "  Limit: ₹" ++ fmt approval_limit ++ "\n" ++
    "  Overage: ₹" ++ fmt overage ++ "\n" ++
    "\n" ++ "Approve this order?"

/-- The `place_order(vendor_name, price, quantity, material, site_name,
approval_limit)` tool.  The result is `.ok text` for a normal return and
`.error e` for a Python exception, paired with the post-state of the store.
In the escalation branch the source evaluates `overage / approval_limit`, so
`approval_limit = 0` raises `ZeroDivisionError` before anything is returned
(and before any store write). -/
def place_order (vendor_name : String) (price quantity : Int)
    (material site_name : String) (approval_limit : Int) (st : MemStore) :
    Except String String × MemStore :=
  if price ≤ approval_limit then
    let order : Order := ⟨site_name, vendor_name, material, quantity, price, "confirmed"⟩
    (.ok (orderConfirmedMessage quantity material vendor_name price approval_limit),
     { st with orders := st.orders ++ [order] })
  else if approval_limit = 0 then
    (.error "ZeroDivisionError: division by zero", st)
  else
    (.ok (approvalRequiredMessage vendor_name price approval_limit (price - approval_limit)),
     st)

/-- Confirmation text of `confirm_order`. -/
def humanConfirmedMessage (quantity : Int) (material vendor_name : String)
    (price : Int) : String :=
  "ORDER_CONFIRMED: Order placed: " ++ toString quantity ++ " bags " ++ material ++
    " from " ++ vendor_name ++ " at ₹" ++ fmt price ++ ". (Human-approved over-budget order.)"

/-- The `confirm_order(vendor_name, price, quantity, material, site_name)`
tool: unconditionally appends an order with status `confirmed_with_approval`. -/
def confirm_order (vendor_name : String) (price quantity : Int)
    (material site_name : String) (st : MemStore) : String × MemStore :=
  let order : Order :=
    ⟨site_name, vendor_name, material, quantity, price, "confirmed_with_approval"⟩
  (humanConfirmedMessage quantity material vendor_name price,
   { st with orders := st.orders ++ [order] })

/-! ### Helper lemmas about the filtering stage -/

lemma filter_vendors_eligible (vendors : List Vendor) (blacklist : List String)
    (budget : Int) :
    (filter_vendors vendors blacklist budget).eligible =
      sortByPrice (eligibleRaw vendors blacklist budget) := rfl

lemma filter_vendors_rejected (vendors : List Vendor) (blacklist : List String)
    (budget : Int) :
    (filter_vendors vendors blacklist budget).rejected =
      (vendors.filter (isBlacklisted blacklist)).map (toRejEntry blacklistReason) := rfl

lemma filter_vendors_overBudget (vendors : List Vendor) (blacklist : List String)
    (budget : Int) :
    (filter_vendors vendors blacklist budget).over_budget =
      (vendors.filter (isOverBudget blacklist budget)).map
        (fun v => toRejEntry (overBudgetReason (vPrice v) budget) v) := rfl

lemma length_three_way (blacklist : List String) (budget : Int) :
    ∀ vendors : List Vendor,
      (eligibleRaw vendors blacklist budget).length
        + (vendors.filter (isBlacklisted blacklist)).length
        + (vendors.filter (isOverBudget blacklist budget)).length = vendors.length := by
  intro vendors
  induction vendors with
  | nil => rfl
  | cons v t ih =>
    unfold eligibleRaw at ih ⊢
    rw [List.filter_cons, List.filter_cons, List.filter_cons]
    by_cases hb : isBlacklisted blacklist v = true
    · have he : isEligible blacklist budget v = false := by simp [isEligible, hb]
      have ho : isOverBudget blacklist budget v = false := by simp [isOverBudget, hb]
      simp only [he, ho, hb, if_true, if_false, Bool.false_eq_true, List.length_cons]
      omega
    · have hb' : isBlacklisted blacklist v = false := by simpa using hb
      by_cases hp : vPrice v ≤ budget
      · have he : isEligible blacklist budget v = true := by simp [isEligible, hb', hp]
        have ho : isOverBudget blacklist budget v = false := by
          simp only [isOverBudget, hb', Bool.not_false, Bool.true_and,
            decide_eq_false_iff_not, not_lt]
          exact hp
        simp only [he, ho, hb', if_true, if_false, Bool.false_eq_true, List.length_cons]
        omega
      · have he : isEligible blacklist budget v = false := by simp [isEligible, hb', hp]
        have ho : isOverBudget blacklist budget v = true := by
          simp only [isOverBudget, hb', Bool.not_false, Bool.true_and, decide_eq_true_eq]
          omega
        simp only [he, ho, hb', if_true, if_false, Bool.false_eq_true, List.length_cons]
        omega

lemma sortByPrice_perm (l : List Vendor) : List.Perm (sortByPrice l) l :=
  List.perm_insertionSort vendorLE l

lemma mem_sortByPrice {l : List Vendor} {v : Vendor} : v ∈ sortByPrice l ↔ v ∈ l :=
  (sortByPrice_perm l).mem_iff

lemma length_sortByPrice (l : List Vendor) : (sortByPrice l).length = l.length :=
  (sortByPrice_perm l).length_eq

lemma sortByPrice_sorted (l : List Vendor) : List.Sorted vendorLE (sortByPrice l) :=
  List.sorted_insertionSort vendorLE l

/-- Filtering on the sort key commutes with the ordered insertion into a
sorted list: the stability kernel of insertion sort. -/
lemma filter_orderedInsert_key (p : Int) (a : Vendor) :
    ∀ l : List Vendor, List.Sorted vendorLE l →
      (List.orderedInsert vendorLE a l).filter (fun x => vPrice x == p) =
        if vPrice a = p then a :: l.filter (fun x => vPrice x == p)
        else l.filter (fun x => vPrice x == p) := by
  intro l
  induction l with
  | nil =>
    intro _
    by_cases h : vPrice a = p <;> simp [List.orderedInsert, List.filter_cons, h]
  | cons b t ih =>
    intro hs
    by_cases hab : vendorLE a b
    · rw [List.orderedInsert, if_pos hab]
      by_cases h : vPrice a = p <;> simp [List.filter_cons, h]
    · rw [List.orderedInsert, if_neg hab]
      have hba : vPrice b < vPrice a := by
        simp only [vendorLE, not_le] at hab
        exact hab
      have iht := ih hs.of_cons
      by_cases h : vPrice a = p
      · have hbp : ¬(vPrice b = p) := by omega
        simp [List.filter_cons, iht, h, hbp]
      · simp [List.filter_cons, iht, h]

/-- Stability of the eligible-bucket sort: within one price class the sorted
list keeps the input order. -/
lemma filter_sortByPrice_key (p : Int) (l : List Vendor) :
    (sortByPrice l).filter (fun x => vPrice x == p) = l.filter (fun x => vPrice x == p) := by
  induction l with
  | nil => rfl
  | cons a t ih =>
    rw [sortByPrice, List.insertionSort,
      filter_orderedInsert_key p a _ (List.sorted_insertionSort vendorLE t)]
    rw [sortByPrice] at ih
    by_cases h : vPrice a = p <;> simp [List.filter_cons, h, ih]

/-- A blacklist hit depends only on the displayed name. -/
lemma isBlacklisted_congr (blacklist : List String) {v w : Vendor}
    (h : vName v = vName w) : isBlacklisted blacklist v = isBlacklisted blacklist w := by
  simp [isBlacklisted, h]

lemma vName_of_none {v : Vendor} (h : v.name = none) : vName v = "Unknown" := by
  simp [vName, h]

lemma vPrice_of_none {v : Vendor} (h : v.price_per_100_bags_inr = none) : vPrice v = 0 := by
  simp [vPrice, h]

/-! ### Helper lemmas about the store operations -/

lemma MemStore.eq_of_parts {a b : MemStore} (hs : ∀ k, a.sites k = b.sites k)
    (ho : a.orders = b.orders) : a = b := by
  cases a
  cases b
  simp only [MemStore.mk.injEq]
  exact ⟨funext hs, ho⟩

lemma store_site_rules_sites_apply (S : String) (L : Int) (B : List String)
    (st : MemStore) (k : String) (h : pyStrip S ≠ "") :
    ((store_site_rules S L B st).2).sites k =
      if k = pyStrip S then some ⟨L, B.map pyStrip⟩ else st.sites k := by
  simp [store_site_rules, h]

lemma store_site_rules_orders (S : String) (L : Int) (B : List String) (st : MemStore) :
    ((store_site_rules S L B st).2).orders = st.orders := by
  by_cases hS : pyStrip S = "" <;> simp [store_site_rules, hS]

lemma fetch_vendors_fst (material : String) (catalog : List Vendor) :
    (fetch_vendors material catalog).1 =
      catalog.filter (fun v => pyLower (vCategory v) == pyLower (pyStrip material)) := by
  by_cases hM : (catalog.filter
      (fun v => pyLower (vCategory v) == pyLower (pyStrip material))).isEmpty <;>
    simp [fetch_vendors, hM]

/-! ### C2 — gate threshold -/

/-- C2: the gate-threshold claim fails on the code at `approval_limit = 0`,
an allowed non-negative input: with `price = 1 > 0 = approval_limit` the
escalation branch of `place_order` evaluates `overage / approval_limit` and
raises `ZeroDivisionError`, so no `APPROVAL_REQUIRED` result is returned. -/
theorem C2_gate_threshold_fault :
    (place_order "V" 1 1 "cement" "S" 0 MemStore.empty).1 =
      .error "ZeroDivisionError: division by zero" := rfl

/-! ### C3 — no silent persistence on escalation -/

/-- C3: an escalated call (`approval_limit < price`) leaves the persisted
orders list unchanged — no order record is written in the escalation branch,
whether it returns the approval request or faults — and `confirm_order`
unconditionally appends exactly one order with status
`confirmed_with_approval`. -/
theorem C3_no_persist_on_escalation (vendor_name : String) (price quantity : Int)
    (material site_name : String) (approval_limit : Int) (st : MemStore)
    (h : approval_limit < price) :
    (place_order vendor_name price quantity material site_name approval_limit st).2.orders
        = st.orders ∧
    (confirm_order vendor_name price quantity material site_name st).2.orders
        = st.orders ++
          [⟨site_name, vendor_name, material, quantity, price, "confirmed_with_approval"⟩] := by
  constructor
  · unfold place_order
    rw [if_neg (by omega)]
    split <;> rfl
  · rfl

theorem C3_witness : ((100 : Int) < 150) ∧
    (place_order "V" 150 1 "cement" "S" 100 MemStore.empty).2.orders
        = MemStore.empty.orders ∧
    (confirm_order "V" 150 1 "cement" "S" MemStore.empty).2.orders
        = MemStore.empty.orders ++
          [⟨"S", "V", "cement", 1, 150, "confirmed_with_approval"⟩] :=
  ⟨by decide, C3_no_persist_on_escalation "V" 150 1 "cement" "S" 100 MemStore.empty (by decide)⟩

/-! ### C5 — totality of the boundary operations -/

/-- C5: the never-faults claim fails on the code: `place_order` with the
data-model-allowed input `approval_limit = 0` (and `price = 5` over the limit)
raises `ZeroDivisionError` instead of returning a result value.  All other
boundary operations of this embedding are total Lean functions. -/
theorem C5_total_return_fault :
    (place_order "VendorX" 5 2 "cement" "Site-1" 0 MemStore.empty).1 =
      .error "ZeroDivisionError: division by zero" := rfl

/-! ### C9 — rule-store round trip and overwrite -/

/-- C9: for a site name with non-empty trim, storing rules and retrieving them
returns exactly the stored limit and the trimmed blacklist, and a second store
for the same site overwrites the first wholesale (the resulting store states
are equal). -/
theorem C9_roundtrip_overwrite (S : String) (L Lp : Int) (B Bp : List String)
    (st : MemStore) (h : pyStrip S ≠ "") :
    retrieve_site_rules S (store_site_rules S L B st).2 =
      .ok ⟨L, B.map pyStrip⟩ ∧
    (store_site_rules S Lp Bp (store_site_rules S L B st).2).2 =
      (store_site_rules S Lp Bp st).2 := by
  constructor
  · simp [retrieve_site_rules, h, store_site_rules_sites_apply S L B st (pyStrip S) h]
  · apply MemStore.eq_of_parts
    · intro k
      rw [store_site_rules_sites_apply S Lp Bp _ k h,
        store_site_rules_sites_apply S L B st k h,
        store_site_rules_sites_apply S Lp Bp st k h]
      by_cases hk : k = pyStrip S <;> simp [hk]
    · rw [store_site_rules_orders, store_site_rules_orders, store_site_rules_orders]

theorem C9_witness : (pyStrip "Delhi-Site-7" ≠ "") ∧
    retrieve_site_rules "Delhi-Site-7"
        (store_site_rules "Delhi-Site-7" 38000 [" BadRock Cements "] MemStore.empty).2 =
      .ok ⟨38000, ["BadRock Cements"]⟩ :=
  ⟨by decide,
    (C9_roundtrip_overwrite "Delhi-Site-7" 38000 0 [" BadRock Cements "] []
      MemStore.empty (by decide)).1⟩

/-! ### C6 — vendor/material lookup -/

/-- C6 counterexample: the claim trims whitespace on both sides of the
category comparison, but the source lowercases the category without trimming
it (`v.get("category", "").lower()`): a vendor with category " cement" matches
material "cement" under the claim yet is not returned. -/
theorem C6_counterexample :
    ¬((fetch_vendors "cement" [⟨some "A", some 1, some " cement"⟩]).1 =
      [(⟨some "A", some 1, some " cement"⟩ : Vendor)].filter
        (fun v => pyLower (pyStrip (vCategory v)) == pyLower (pyStrip "cement"))) := by
  decide

/-- C6 (amended): `fetch_vendors` returns exactly the catalog vendors whose
category, lowercased but not trimmed, equals the trimmed lowercased material;
when there are no matches it returns the empty sequence and emits exactly one
audit event listing the available categories, and otherwise emits none. -/
theorem C6_fetch_vendors (material : String) (catalog : List Vendor) :
    (∀ v : Vendor, v ∈ (fetch_vendors material catalog).1 ↔
      v ∈ catalog ∧ pyLower (vCategory v) = pyLower (pyStrip material)) ∧
    ((fetch_vendors material catalog).1 = [] →
      (fetch_vendors material catalog).2 =
        [⟨noMatchReason material, availableCategories catalog⟩]) ∧
    ((fetch_vendors material catalog).1 ≠ [] →
      (fetch_vendors material catalog).2 = []) := by
  refine ⟨?_, ?_, ?_⟩
  · intro v
    rw [fetch_vendors_fst]
    simp [List.mem_filter]
  · intro h
    rw [fetch_vendors_fst] at h
    simp [fetch_vendors, h]
  · intro h
    rw [fetch_vendors_fst] at h
    simp only [fetch_vendors]
    rw [if_neg]
    simp only [List.isEmpty_iff]
    exact h

theorem C6_witness :
    ((fetch_vendors "glass" [⟨some "A", some 1, some "cement"⟩]).1 = []) ∧
    (fetch_vendors "glass" [⟨some "A", some 1, some "cement"⟩]).2 =
      [⟨noMatchReason "glass", availableCategories [⟨some "A", some 1, some "cement"⟩]⟩] :=
  ⟨by decide,
    (C6_fetch_vendors "glass" [⟨some "A", some 1, some "cement"⟩]).2.1 (by decide)⟩

/-! ### C7 — blacklist precedence -/

/-- C7: a blacklisted vendor lands in `rejected` with the blacklist reason and
its price, regardless of that price; its name never appears in `over_budget`
and the vendor itself is never eligible — the budget check only applies to
vendors that fell past the blacklist `continue`. -/
theorem C7_blacklist_precedence (vendors : List Vendor) (blacklist : List String)
    (budget : Int) (v : Vendor) (hv : v ∈ vendors)
    (hb : isBlacklisted blacklist v = true) :
    (⟨vName v, blacklistReason, vPrice v⟩ : RejEntry)
        ∈ (filter_vendors vendors blacklist budget).rejected ∧
    vName v ∉ (filter_vendors vendors blacklist budget).over_budget.map RejEntry.vendor ∧
    v ∉ (filter_vendors vendors blacklist budget).eligible := by
  refine ⟨?_, ?_, ?_⟩
  · rw [filter_vendors_rejected]
    exact List.mem_map.mpr ⟨v, List.mem_filter.mpr ⟨hv, hb⟩, rfl⟩
  · rw [filter_vendors_overBudget]
    intro hmem
    rcases List.mem_map.mp hmem with ⟨e, he, hev⟩
    rcases List.mem_map.mp he with ⟨w, hw, rfl⟩
    have hwo : isOverBudget blacklist budget w = true := (List.mem_filter.mp hw).2
    have hwb : isBlacklisted blacklist w = false := by
      simp only [isOverBudget, Bool.and_eq_true, Bool.not_eq_true'] at hwo
      exact hwo.1
    have hname : vName w = vName v := hev
    rw [isBlacklisted_congr blacklist hname, hb] at hwb
    cases hwb
  · rw [filter_vendors_eligible]
    intro hmem
    have helig := (List.mem_filter.mp (mem_sortByPrice.mp hmem)).2
    simp only [isEligible, Bool.and_eq_true, Bool.not_eq_true'] at helig
    rw [hb] at helig
    cases helig.1

theorem C7_witness :
    ((⟨some "Bad Rock", some 100, none⟩ : Vendor) ∈
        [(⟨some "Bad Rock", some 100, none⟩ : Vendor)]) ∧
    isBlacklisted ["bad rock"] ⟨some "Bad Rock", some 100, none⟩ = true ∧
    (⟨"Bad Rock", blacklistReason, 100⟩ : RejEntry)
        ∈ (filter_vendors [⟨some "Bad Rock", some 100, none⟩] ["bad rock"] 10).rejected :=
  ⟨by decide, by decide,
    (C7_blacklist_precedence [⟨some "Bad Rock", some 100, none⟩] ["bad rock"] 10
      ⟨some "Bad Rock", some 100, none⟩ (by decide) (by decide)).1⟩

/-! ### C1 — partition of the input vendors -/

lemma of_mem_eligible {vendors : List Vendor} {blacklist : List String} {budget : Int}
    {n : String} (h : n ∈ (filter_vendors vendors blacklist budget).eligible.map vName) :
    ∃ v ∈ vendors, isEligible blacklist budget v = true ∧ vName v = n := by
  rw [filter_vendors_eligible] at h
  rcases List.mem_map.mp h with ⟨v, hv, rfl⟩
  have hv2 := List.mem_filter.mp (mem_sortByPrice.mp hv)
  exact ⟨v, hv2.1, hv2.2, rfl⟩

lemma of_mem_rejected {vendors : List Vendor} {blacklist : List String} {budget : Int}
    {n : String}
    (h : n ∈ (filter_vendors vendors blacklist budget).rejected.map RejEntry.vendor) :
    ∃ v ∈ vendors, isBlacklisted blacklist v = true ∧ vName v = n := by
  rw [filter_vendors_rejected] at h
  rcases List.mem_map.mp h with ⟨e, he, hev⟩
  rcases List.mem_map.mp he with ⟨v, hv, rfl⟩
  have hv2 := List.mem_filter.mp hv
  exact ⟨v, hv2.1, hv2.2, hev⟩

lemma of_mem_overBudget {vendors : List Vendor} {blacklist : List String} {budget : Int}
    {n : String}
    (h : n ∈ (filter_vendors vendors blacklist budget).over_budget.map RejEntry.vendor) :
    ∃ v ∈ vendors, isOverBudget blacklist budget v = true ∧ vName v = n := by
  rw [filter_vendors_overBudget] at h
  rcases List.mem_map.mp h with ⟨e, he, hev⟩
  rcases List.mem_map.mp he with ⟨v, hv, rfl⟩
  have hv2 := List.mem_filter.mp hv
  exact ⟨v, hv2.1, hv2.2, hev⟩

/-- C1 counterexample: with two input vendors both named "V" (prices 50 and
10, no blacklist, budget 20), the name "V" appears in both `eligible` and
`over_budget`: the buckets are not pairwise disjoint by vendor name, although
the bucket sizes still sum to the input size. -/
theorem C1_counterexample :
    "V" ∈ ((filter_vendors [⟨some "V", some 50, none⟩, ⟨some "V", some 10, none⟩]
        [] 20).eligible.map vName) ∧
    "V" ∈ ((filter_vendors [⟨some "V", some 50, none⟩, ⟨some "V", some 10, none⟩]
        [] 20).over_budget.map RejEntry.vendor) := by
  decide

/-- C1 (amended): the three buckets partition the input by occurrence — the
bucket sizes always sum to the input size and every input vendor lands in at
least one bucket — and when the displayed input vendor names are pairwise
distinct the buckets are also pairwise disjoint by vendor name. -/
theorem C1_partition (vendors : List Vendor) (blacklist : List String) (budget : Int) :
    ((filter_vendors vendors blacklist budget).eligible.length
        + (filter_vendors vendors blacklist budget).rejected.length
        + (filter_vendors vendors blacklist budget).over_budget.length
      = vendors.length) ∧
    (∀ v ∈ vendors,
      v ∈ (filter_vendors vendors blacklist budget).eligible ∨
      vName v ∈ (filter_vendors vendors blacklist budget).rejected.map RejEntry.vendor ∨
      vName v ∈ (filter_vendors vendors blacklist budget).over_budget.map RejEntry.vendor) ∧
    ((vendors.map vName).Nodup → ∀ n : String,
      ¬(n ∈ (filter_vendors vendors blacklist budget).eligible.map vName ∧
        n ∈ (filter_vendors vendors blacklist budget).rejected.map RejEntry.vendor) ∧
      ¬(n ∈ (filter_vendors vendors blacklist budget).eligible.map vName ∧
        n ∈ (filter_vendors vendors blacklist budget).over_budget.map RejEntry.vendor) ∧
      ¬(n ∈ (filter_vendors vendors blacklist budget).rejected.map RejEntry.vendor ∧
        n ∈ (filter_vendors vendors blacklist budget).over_budget.map RejEntry.vendor)) := by
  refine ⟨?_, ?_, ?_⟩
  · rw [filter_vendors_eligible, filter_vendors_rejected, filter_vendors_overBudget,
      length_sortByPrice, List.length_map, List.length_map]
    exact length_three_way blacklist budget vendors
  · intro v hv
    by_cases hb : isBlacklisted blacklist v = true
    · right; left
      rw [filter_vendors_rejected]
      exact List.mem_map.mpr
        ⟨toRejEntry blacklistReason v, List.mem_map.mpr ⟨v, List.mem_filter.mpr ⟨hv, hb⟩, rfl⟩, rfl⟩
    · have hb' : isBlacklisted blacklist v = false := by simpa using hb
      by_cases hp : vPrice v ≤ budget
      · left
        rw [filter_vendors_eligible]
        refine mem_sortByPrice.mpr (List.mem_filter.mpr ⟨hv, ?_⟩)
        simp [isEligible, hb', hp]
      · right; right
        rw [filter_vendors_overBudget]
        refine List.mem_map.mpr ⟨toRejEntry (overBudgetReason (vPrice v) budget) v,
          List.mem_map.mpr ⟨v, List.mem_filter.mpr ⟨hv, ?_⟩, rfl⟩, rfl⟩
        simp only [isOverBudget, hb', Bool.not_false, Bool.true_and, decide_eq_true_eq]
        omega
  · intro hnd n
    refine ⟨?_, ?_, ?_⟩
    · rintro ⟨h1, h2⟩
      rcases of_mem_eligible h1 with ⟨v, hv, he, hvn⟩
      rcases of_mem_rejected h2 with ⟨w, hw, hr, hwn⟩
      have hvw : v = w := List.inj_on_of_nodup_map hnd hv hw (hvn.trans hwn.symm)
      rw [hvw] at he
      simp only [isEligible, Bool.and_eq_true, Bool.not_eq_true'] at he
      rw [hr] at he
      cases he.1
    · rintro ⟨h1, h2⟩
      rcases of_mem_eligible h1 with ⟨v, hv, he, hvn⟩
      rcases of_mem_overBudget h2 with ⟨w, hw, ho, hwn⟩
      have hvw : v = w := List.inj_on_of_nodup_map hnd hv hw (hvn.trans hwn.symm)
      rw [hvw] at he
      simp only [isEligible, Bool.and_eq_true, Bool.not_eq_true', decide_eq_true_eq] at he
      simp only [isOverBudget, Bool.and_eq_true, Bool.not_eq_true', decide_eq_true_eq] at ho
      omega
    · rintro ⟨h1, h2⟩
      rcases of_mem_rejected h1 with ⟨v, hv, hr, hvn⟩
      rcases of_mem_overBudget h2 with ⟨w, hw, ho, hwn⟩
      have hvw : v = w := List.inj_on_of_nodup_map hnd hv hw (hvn.trans hwn.symm)
      rw [hvw] at hr
      simp only [isOverBudget, Bool.and_eq_true, Bool.not_eq_true'] at ho
      rw [hr] at ho
      cases ho.1

theorem C1_witness :
    (([(⟨some "A", some 10, none⟩ : Vendor), ⟨some "B", some 50, none⟩].map vName).Nodup) ∧
    ((filter_vendors [⟨some "A", some 10, none⟩, ⟨some "B", some 50, none⟩] ["a"] 20).eligible.length
        + (filter_vendors [⟨some "A", some 10, none⟩, ⟨some "B", some 50, none⟩] ["a"] 20).rejected.length
        + (filter_vendors [⟨some "A", some 10, none⟩, ⟨some "B", some 50, none⟩] ["a"] 20).over_budget.length
      = 2) ∧
    ¬("B" ∈ (filter_vendors [⟨some "A", some 10, none⟩, ⟨some "B", some 50, none⟩]
          ["a"] 20).eligible.map vName ∧
      "B" ∈ (filter_vendors [⟨some "A", some 10, none⟩, ⟨some "B", some 50, none⟩]
          ["a"] 20).rejected.map RejEntry.vendor) := by
  have h := C1_partition [⟨some "A", some 10, none⟩, ⟨some "B", some 50, none⟩] ["a"] 20
  exact ⟨by decide, h.1, (h.2.2 (by decide) "B").1⟩

/-! ### C8 — eligible ordering and stability -/

/-- C8: the eligible sequence is non-decreasing in price, and vendors with
equal price keep their relative input order: each price class of the sorted
eligible list equals the same price class of the unsorted eligible bucket
`eligibleRaw`, which lists the eligible vendors in input order. -/
theorem C8_price_sorted (vendors : List Vendor) (blacklist : List String) (budget : Int) :
    (∀ i j : Fin (filter_vendors vendors blacklist budget).eligible.length, i < j →
      vPrice ((filter_vendors vendors blacklist budget).eligible.get i) ≤
        vPrice ((filter_vendors vendors blacklist budget).eligible.get j)) ∧
    (∀ p : Int,
      (filter_vendors vendors blacklist budget).eligible.filter (fun v => vPrice v == p) =
        (eligibleRaw vendors blacklist budget).filter (fun v => vPrice v == p)) := by
  constructor
  · intro i j hij
    have hs : List.Sorted vendorLE ((filter_vendors vendors blacklist budget).eligible) := by
      rw [filter_vendors_eligible]
      exact sortByPrice_sorted _
    exact hs.rel_get_of_lt hij
  · intro p
    rw [filter_vendors_eligible]
    exact filter_sortByPrice_key p _

theorem C8_witness :
    vPrice ((filter_vendors [⟨some "A", some 30, none⟩, ⟨some "B", some 10, none⟩]
        [] 100).eligible.get ⟨0, by decide⟩) ≤
      vPrice ((filter_vendors [⟨some "A", some 30, none⟩, ⟨some "B", some 10, none⟩]
        [] 100).eligible.get ⟨1, by decide⟩) :=
  (C8_price_sorted [⟨some "A", some 30, none⟩, ⟨some "B", some 10, none⟩] [] 100).1
    ⟨0, by decide⟩ ⟨1, by decide⟩ (by decide)

/-! ### C10 — defaults for missing vendor fields -/

/-- C10: a vendor dict without the price key defaults to price 0: when it is
not blacklisted it lands in `eligible` for any budget ≥ 0 (never in
`over_budget`, all of whose entries have price above the budget) and it
precedes every positively-priced vendor in the sorted eligible sequence; a
vendor without the name key is displayed as "Unknown". -/
theorem C10_missing_fields (vendors : List Vendor) (blacklist : List String)
    (budget : Int) (v : Vendor) (hv : v ∈ vendors)
    (hp : v.price_per_100_bags_inr = none)
    (hb : isBlacklisted blacklist v = false) (hbud : 0 ≤ budget) :
    v ∈ (filter_vendors vendors blacklist budget).eligible ∧
    (∀ e ∈ (filter_vendors vendors blacklist budget).over_budget, budget < e.price) ∧
    (∀ i j : Fin (filter_vendors vendors blacklist budget).eligible.length,
      (filter_vendors vendors blacklist budget).eligible.get i = v →
      0 < vPrice ((filter_vendors vendors blacklist budget).eligible.get j) →
      (i : Nat) < (j : Nat)) ∧
    (∀ w : Vendor, w.name = none → vName w = "Unknown") := by
  refine ⟨?_, ?_, ?_, ?_⟩
  · rw [filter_vendors_eligible]
    refine mem_sortByPrice.mpr (List.mem_filter.mpr ⟨hv, ?_⟩)
    simp only [isEligible, hb, Bool.not_false, Bool.true_and, decide_eq_true_eq,
      vPrice_of_none hp]
    exact hbud
  · intro e he
    rw [filter_vendors_overBudget] at he
    rcases List.mem_map.mp he with ⟨w, hw, rfl⟩
    have hwo := (List.mem_filter.mp hw).2
    simp only [isOverBudget, Bool.and_eq_true, decide_eq_true_eq] at hwo
    exact hwo.2
  · intro i j hgi hgj
    have hs : List.Sorted vendorLE ((filter_vendors vendors blacklist budget).eligible) := by
      rw [filter_vendors_eligible]
      exact sortByPrice_sorted _
    have hvi : vPrice ((filter_vendors vendors blacklist budget).eligible.get i) = 0 := by
      rw [hgi, vPrice_of_none hp]
    by_contra hij
    push_neg at hij
    rcases Nat.eq_or_lt_of_le hij with heq | hlt
    · have : j = i := Fin.ext heq
      rw [this, hvi] at hgj
      exact lt_irrefl 0 hgj
    · have hle : vendorLE ((filter_vendors vendors blacklist budget).eligible.get j)
          ((filter_vendors vendors blacklist budget).eligible.get i) :=
        hs.rel_get_of_lt (Fin.lt_def.mpr hlt)
      have : vPrice ((filter_vendors vendors blacklist budget).eligible.get j) ≤ 0 := by
        rw [← hvi]
        exact hle
      omega
  · intro w hw
    exact vName_of_none hw

theorem C10_witness :
    ((⟨none, none, none⟩ : Vendor) ∈
        [(⟨some "A", some 5, none⟩ : Vendor), ⟨none, none, none⟩]) ∧
    (⟨none, none, none⟩ : Vendor).price_per_100_bags_inr = none ∧
    isBlacklisted [] (⟨none, none, none⟩ : Vendor) = false ∧
    ((0 : Int) ≤ 7) ∧
    (⟨none, none, none⟩ : Vendor) ∈
      (filter_vendors [⟨some "A", some 5, none⟩, ⟨none, none, none⟩] [] 7).eligible :=
  ⟨by decide, rfl, by decide, by decide,
    (C10_missing_fields [⟨some "A", some 5, none⟩, ⟨none, none, none⟩] [] 7
      ⟨none, none, none⟩ (by decide) rfl (by decide) (by decide)).1⟩

end Procurement
